import Mathlib

/-!
Verification development for the PyLogic repository (src/tree.py, src/logic_tree.py,
src/expression.py, src/variable.py, src/logic_node.py, src/logic_var.py, src/main.py).

The repository contains two parallel families:
  * the "Tree" family: Tree (tree.py) with Expression (expression.py) and Variable (variable.py);
  * the "Logic" family: LogicTree (logic_tree.py) with LogicNode (logic_node.py) and
    LogicVar (logic_var.py).
Both share the same Lark grammar.  Below, each definition is a shallow embedding of the
corresponding Python function; doc comments name the source.
-/

/-! ## Tokens of the Lark grammar shared by Tree.BOOLEAN and LogicTree.BOOLEAN -/

/-- Tokens of the grammar in src/tree.py / src/logic_tree.py.  Operator synonym classes:
OR: "+" "|" "||" "or" "OR"; AND: "*" "&" "&&" "and" "AND"; XOR: "^" "xor" "XOR";
XNOR: "-^" "xnor" "XNOR"; NOR: "-+" "nor" "NOR"; NAND: "-*" "nand" "NAND";
TILDE: "~" "!" "not" "NOT"; grouping; IDENT: common.CNAME. -/
inductive Token
  | orT | andT | xorT | xnorT | norT | nandT
  | notT (v : String)
  | lparen | rparen | lbrack | rbrack
  | ident (v : String)
deriving DecidableEq

/-- A character of CNAME after the first: letter, digit or underscore. -/
def identChar (c : Char) : Bool := c.isAlpha || c.isDigit || c == '_'

/-- Maps a CNAME-shaped word to the keyword token it collides with, if any
(the grammar's string literals win over the IDENT terminal on an exact match). -/
def keywordToken (w : String) : Option Token :=
  if w == "or" || w == "OR" then some Token.orT
  else if w == "and" || w == "AND" then some Token.andT
  else if w == "xor" || w == "XOR" then some Token.xorT
  else if w == "xnor" || w == "XNOR" then some Token.xnorT
  else if w == "nor" || w == "NOR" then some Token.norT
  else if w == "nand" || w == "NAND" then some Token.nandT
  else if w == "not" || w == "NOT" then some (Token.notT w)
  else none

/-- Fuel-indexed tokenizer for the grammar's terminals; whitespace (WS) is ignored.
Every step consumes at least one character, so fuel = length + 1 always suffices. -/
def tokenizeF : Nat → List Char → Option (List Token)
  | 0, _ => none
  | _ + 1, [] => some []
  | f + 1, c :: cs =>
    if c == ' ' || c == '\t' || c == '\n' || c == '\r' then tokenizeF f cs
    else if c == '(' then (tokenizeF f cs).map (fun ts => Token.lparen :: ts)
    else if c == ')' then (tokenizeF f cs).map (fun ts => Token.rparen :: ts)
    else if c == '[' then (tokenizeF f cs).map (fun ts => Token.lbrack :: ts)
    else if c == ']' then (tokenizeF f cs).map (fun ts => Token.rbrack :: ts)
    else if c == '+' then (tokenizeF f cs).map (fun ts => Token.orT :: ts)
    else if c == '|' then
      match cs with
      | '|' :: cs2 => (tokenizeF f cs2).map (fun ts => Token.orT :: ts)
      | _ => (tokenizeF f cs).map (fun ts => Token.orT :: ts)
    else if c == '*' then (tokenizeF f cs).map (fun ts => Token.andT :: ts)
    else if c == '&' then
      match cs with
      | '&' :: cs2 => (tokenizeF f cs2).map (fun ts => Token.andT :: ts)
      | _ => (tokenizeF f cs).map (fun ts => Token.andT :: ts)
    else if c == '^' then (tokenizeF f cs).map (fun ts => Token.xorT :: ts)
    else if c == '-' then
      match cs with
      | '^' :: cs2 => (tokenizeF f cs2).map (fun ts => Token.xnorT :: ts)
      | '+' :: cs2 => (tokenizeF f cs2).map (fun ts => Token.norT :: ts)
      | '*' :: cs2 => (tokenizeF f cs2).map (fun ts => Token.nandT :: ts)
      | _ => none
    else if c == '~' then (tokenizeF f cs).map (fun ts => Token.notT "~" :: ts)
    else if c == '!' then (tokenizeF f cs).map (fun ts => Token.notT "!" :: ts)
    else if c.isAlpha || c == '_' then
      let word := String.mk (c :: cs.takeWhile identChar)
      let rest := cs.dropWhile identChar
      match keywordToken word with
      | some t => (tokenizeF f rest).map (fun ts => t :: ts)
      | none => (tokenizeF f rest).map (fun ts => Token.ident word :: ts)
    else none

/-- Tokenizes a whole input string; none models a lexer error. -/
def tokenize (s : String) : Option (List Token) :=
  tokenizeF (s.toList.length + 1) s.toList

/-! ## Parse trees

Lark returns Tree/Token values; with the grammar's inline-`?` rules every surviving
node has exactly two children: a binary rule node has children `[left, right]`
(the anonymous operator literals are filtered out), and an `nexpr` node has children
`[TILDE token, operand]`.  `PTree.tok` is a Lark Token, `PTree.node` a Lark Tree. -/

inductive PTree
  | tok (value : String)
  | node (data : String) (child0 child1 : PTree)
deriving DecidableEq

/-- Rule name and separator token of each binary precedence level, loosest first:
orexpr, andexpr, xorexpr, xnorexpr, norexpr, nandexpr. -/
def levelData : Nat → String
  | 0 => "orexpr"
  | 1 => "andexpr"
  | 2 => "xorexpr"
  | 3 => "xnorexpr"
  | 4 => "norexpr"
  | _ => "nandexpr"

/-- Whether a token is the separator of the given binary precedence level. -/
def levelTok : Nat → Token → Bool
  | 0, Token.orT => true
  | 1, Token.andT => true
  | 2, Token.xorT => true
  | 3, Token.xnorT => true
  | 4, Token.norT => true
  | 5, Token.nandT => true
  | _, _ => false

mutual

/-- Parses precedence level `lvl` (0 = orexpr .. 5 = nandexpr; 6 falls to term).
Each level is left-associative over the next, per the grammar rules
`?orexpr: (orexpr OP)? andexpr` and so on. -/
def parseBin : Nat → Nat → List Token → Option (PTree × List Token)
  | 0, _, _ => none
  | f + 1, lvl, ts =>
    if lvl ≥ 6 then parseTerm f ts
    else
      match parseBin f (lvl + 1) ts with
      | none => none
      | some (first, rest) => parseBinTail f lvl first rest

/-- Left-associative continuation of a binary level. -/
def parseBinTail : Nat → Nat → PTree → List Token → Option (PTree × List Token)
  | 0, _, _, _ => none
  | _ + 1, _, acc, [] => some (acc, [])
  | f + 1, lvl, acc, t :: ts =>
    if levelTok lvl t then
      match parseBin f (lvl + 1) ts with
      | none => none
      | some (rhs, rest) => parseBinTail f lvl (PTree.node (levelData lvl) acc rhs) rest
    else some (acc, t :: ts)

/-- Parses `?term: nexpr | pexpr | IDENT` with `?pexpr: "(" orexpr ")" | "[" orexpr "]"`.
Modelled from the spec: the grammar rule reads `?nexpr: TILDE orexpr`, which under
Lark's Earley parsing is ambiguous about how much the TILDE covers; the repository's
documented behavior (the worked examples in the docstrings of Expression.functional
and LogicNode.functional: `not a or b` is `or(not(a), b)`) resolves NOT to bind to
the single following term, which is what is embedded here. -/
def parseTerm : Nat → List Token → Option (PTree × List Token)
  | 0, _ => none
  | f + 1, Token.notT v :: ts =>
    match parseTerm f ts with
    | some (child, rest) => some (PTree.node "nexpr" (PTree.tok v) child, rest)
    | none => none
  | f + 1, Token.lparen :: ts =>
    match parseBin f 0 ts with
    | some (inner, Token.rparen :: rest) => some (inner, rest)
    | _ => none
  | f + 1, Token.lbrack :: ts =>
    match parseBin f 0 ts with
    | some (inner, Token.rbrack :: rest) => some (inner, rest)
    | _ => none
  | _ + 1, Token.ident v :: ts => some (PTree.tok v, ts)
  | _, _ => none

end

/-- Parses a token list as the start rule: a full orexpr consuming all input
(anything else is a parse error).  The fuel bound is generous: each parser step
either consumes fuel toward a token or descends one of the 7 precedence levels. -/
def parseTokens (ts : List Token) : Option PTree :=
  match parseBin (10 * ts.length + 10) 0 ts with
  | some (t, []) => some t
  | _ => none

/-- Embeds `Tree.BOOLEAN.parse(expression).children[0]` / `LogicTree.BOOLEAN.parse(...)`:
lex then parse; none models the Lark exception. -/
def parseString (s : String) : Option PTree :=
  match tokenize s with
  | none => none
  | some ts => parseTokens ts

/-! ## The dictionaries built by `__create_dict`

Both `Tree.__create_dict` (tree.py) and `LogicTree.__create_dict` (logic_tree.py) build
plain Python dicts.  Only two shapes arise: a leaf dict with a single name key
("variable" in tree.py, "value" in logic_tree.py) plus "has_not", and an operation dict
with keys "operator", "left", "right", "has_not".  The leaf's name key is kept as data
because the two files disagree about it and `Tree.__init__` tests for the wrong one. -/

inductive PyDict
  | leafD (key : String) (value : String) (has_not : Bool)
  | opD (operator : String) (left right : PyDict) (has_not : Bool)
deriving DecidableEq

/-- Python `k in dict` on the two dict shapes above. -/
def PyDict.hasKey : PyDict → String → Bool
  | PyDict.leafD k _ _, s => s == k || s == "has_not"
  | PyDict.opD _ _ _ _, s => s == "operator" || s == "left" || s == "right" || s == "has_not"

/-- Embeds `expression["has_not"] = not expression["has_not"]` on either dict shape. -/
def PyDict.flipHasNot : PyDict → PyDict
  | PyDict.leafD k v hn => PyDict.leafD k v (!hn)
  | PyDict.opD op l r hn => PyDict.opD op l r (!hn)

/-- Embeds `parse_tree.data[ : parse_tree.data.find("expr")].upper()`: on every binary rule
name of this grammar ("orexpr" .. "nandexpr") the slice before "expr" is everything
but the last four characters; `.upper()` maps each character through Char.toUpper. -/
def larkDataOperator (d : String) : String :=
  String.mk ((d.data.take (d.data.length - 4)).map Char.toUpper)

/-- The variable-accumulation loop shared by both `__create_dict`s:
`for variable in new: if variable not in variables: variables.append(variable)`. -/
def addNewVariables (vars new : List String) : List String :=
  new.foldl (fun acc v => if acc.contains v then acc else acc ++ [v]) vars

/-- Embeds `Tree.__create_dict` (src/tree.py): returns the parsed expression dict and the
list of variables.  Leaf dicts use the key "variable". -/
def treeCreateDict : PTree → PyDict × List String
  | PTree.tok v => (PyDict.leafD "variable" v false, [v])
  | PTree.node d c0 c1 =>
    if d == "nexpr" then
      let (e, vs) := treeCreateDict c1
      (e.flipHasNot, addNewVariables [] vs)
    else
      let (l, lvs) := treeCreateDict c0
      let (r, rvs) := treeCreateDict c1
      (PyDict.opD (larkDataOperator d) l r false, addNewVariables [] (lvs ++ rvs))

/-- Embeds `LogicTree.__create_dict` (src/logic_tree.py): identical except leaf dicts use the
key "value". -/
def logicTreeCreateDict : PTree → PyDict × List String
  | PTree.tok v => (PyDict.leafD "value" v false, [v])
  | PTree.node d c0 c1 =>
    if d == "nexpr" then
      let (e, vs) := logicTreeCreateDict c1
      (e.flipHasNot, addNewVariables [] vs)
    else
      let (l, lvs) := logicTreeCreateDict c0
      let (r, rvs) := logicTreeCreateDict c1
      (PyDict.opD (larkDataOperator d) l r false, addNewVariables [] (lvs ++ rvs))

/-! ## The Tree family AST: Variable (variable.py) and Expression (expression.py) -/

/-- Union of Variable and Expression nodes: `Expr.var` is a Variable (fields
`variable`, `has_not`), `Expr.expr` an Expression (fields `operator`, `left`,
`right`, `has_not`). -/
inductive Expr
  | var (name : String) (has_not : Bool)
  | expr (operator : String) (left right : Expr) (has_not : Bool)
deriving DecidableEq

/-- Python dict lookup in a truth-values mapping (first matching key). -/
def lookupTV (tv : List (String × Bool)) (k : String) : Option Bool :=
  match tv with
  | [] => none
  | (k2, v) :: rest => if k == k2 then some v else lookupTV rest k

/-- Embeds `Variable.evaluate` and `Expression.evaluate` (src/variable.py, src/expression.py).
A Variable raises KeyError when its name is missing (none here); an Expression
evaluates left then right, combines per the if/elif operator chain (an unmatched
operator leaves the initial `evaluation = False`), and returns `has_not ^ evaluation`. -/
def Expr.evaluate : Expr → List (String × Bool) → Option Bool
  | Expr.var v hn, tv =>
    match lookupTV tv v with
    | none => none
    | some b => some (b ^^ hn)
  | Expr.expr op l r hn, tv =>
    match l.evaluate tv, r.evaluate tv with
    | some lv, some rv =>
      let evaluation :=
        if op == "OR" then lv || rv
        else if op == "NOR" then !(lv || rv)
        else if op == "AND" then lv && rv
        else if op == "NAND" then !(lv && rv)
        else if op == "XOR" then lv ^^ rv
        else if op == "XNOR" then !(lv ^^ rv)
        else false
      some (hn ^^ evaluation)
    | _, _ => none

/-- Embeds `Variable.__str__` (src/variable.py): "NOT {variable}" when negated, else the name.
(Expression defines no `__str__`.) -/
def variableStr (v : String) (hn : Bool) : String :=
  if hn then "NOT " ++ v else v

/-- Embeds `Variable.functional` and `Expression.functional` (src/variable.py,
src/expression.py).  Note the Expression version interpolates `self.operator`
unchanged (no lowercasing). -/
def Expr.functional : Expr → String
  | Expr.var v hn => if hn then "not(" ++ v ++ ")" else v
  | Expr.expr op l r hn =>
    if hn then "not(" ++ op ++ "(" ++ l.functional ++ ", " ++ r.functional ++ "))"
    else op ++ "(" ++ l.functional ++ ", " ++ r.functional ++ ")"

/-- Embeds `Variable.__init__(json=...)` (src/variable.py): requires the "variable" key
(AttributeError otherwise). -/
def variableOfJson : PyDict → Except String Expr
  | PyDict.leafD k v hn =>
    if k == "variable" then Except.ok (Expr.var v hn)
    else Except.error "Variable key must exist in json"
  | PyDict.opD _ _ _ _ => Except.error "Variable key must exist in json"

/-- Embeds `Expression.__init__(json=...)` (src/expression.py): raises KeyError when the
"operator", "left" and "right" keys are all absent; each child loads as a Variable
when its dict has a "variable" key, else as an Expression; `has_not` is read with
default False and stored unchanged.
(A dict whose only scalar key is one of operator/left/right would also fail, on the
child accesses; both failure modes are collapsed into the error case here.) -/
def expressionOfJson : PyDict → Except String Expr
  | PyDict.opD op l r hn => do
    let le ← if l.hasKey "variable" then variableOfJson l else expressionOfJson l
    let re ← if r.hasKey "variable" then variableOfJson r else expressionOfJson r
    Except.ok (Expr.expr op le re hn)
  | PyDict.leafD _ _ _ => Except.error "Operator, left, and right keys must exist"

/-- Embeds `Expression.__init__` called directly with operator, left, right, has_not
(src/expression.py): the json-less path performs no validation at all and simply
stores the four fields. -/
def expressionInit (operator : String) (left right : Expr) (has_not : Bool) :
    Except String Expr :=
  Except.ok (Expr.expr operator left right has_not)

/-! ## The Logic family AST: LogicVar (logic_var.py) and LogicNode (logic_node.py) -/

/-- Union of LogicVar and LogicNode: `LNode.lvar` is a LogicVar (fields `value`,
`has_not`), `LNode.lnode` a LogicNode (fields `left`, `operator`, `right`, `has_not`). -/
inductive LNode
  | lvar (value : String) (has_not : Bool)
  | lnode (left : LNode) (operator : String) (right : LNode) (has_not : Bool)
deriving DecidableEq

/-- Embeds `LogicVar.evaluate` and `LogicNode.evaluate` (src/logic_var.py, src/logic_node.py).
A LogicVar indexes the dict directly (KeyError when missing, none here); a LogicNode
evaluates left then right but its if/elif chain only covers "OR" and "AND" - any
other operator leaves the local `evaluation` unbound, an UnboundLocalError (none). -/
def LNode.evaluate : LNode → List (String × Bool) → Option Bool
  | LNode.lvar v hn, tv =>
    match lookupTV tv v with
    | none => none
    | some b => some (if hn then !b else b)
  | LNode.lnode l op r hn, tv =>
    match l.evaluate tv, r.evaluate tv with
    | some lv, some rv =>
      match (if op == "OR" then some (lv || rv)
             else if op == "AND" then some (lv && rv)
             else none) with
      | none => none
      | some ev => some (if hn then !ev else ev)
    | _, _ => none

/-- Embeds `LogicVar.__str__` and `LogicNode.__str__` (src/logic_var.py, src/logic_node.py).
A negated LogicNode renders as "NOT(left OP right)" - no space before the
parenthesis in the source format string. -/
def LNode.str : LNode → String
  | LNode.lvar v hn => (if hn then "NOT " else "") ++ v
  | LNode.lnode l op r hn =>
    if !hn then l.str ++ " " ++ op ++ " " ++ r.str
    else "NOT(" ++ l.str ++ " " ++ op ++ " " ++ r.str ++ ")"

/-- Embeds `LogicNode.functional` (src/logic_node.py) lowercases the operator and recurses
into `left.functional()` / `right.functional()`; but LogicVar (src/logic_var.py)
defines no `functional` method, so reaching a leaf raises AttributeError (none). -/
def LNode.functional : LNode → Option String
  | LNode.lvar _ _ => none
  | LNode.lnode l op r hn =>
    match l.functional, r.functional with
    | some ls, some rs =>
      let e := op.toLower ++ "(" ++ ls ++ ", " ++ rs ++ ")"
      some (if hn then "not(" ++ e ++ ")" else e)
    | _, _ => none

/-- Embeds `LogicVar.__init__(json=...)` (src/logic_var.py): requires "value" and "has_not"
keys (KeyError otherwise); the values are then non-None and get stored. -/
def logicVarOfJson : PyDict → Except String LNode
  | PyDict.leafD k v hn =>
    if k == "value" then Except.ok (LNode.lvar v hn)
    else Except.error "The \"value\" and \"has_not\" keys must exist in the LogicVar JSON."
  | PyDict.opD _ _ _ _ =>
    Except.error "The \"value\" and \"has_not\" keys must exist in the LogicVar JSON."

/-- Embeds `LogicNode.__init__(json=...)` (src/logic_node.py): requires all of "left",
"operator", "right", "has_not"; when the operator is NAND, NOR or XNOR the loaded
`has_not` is inverted (the operator itself is left unchanged); each child loads as a
LogicVar when its dict has a "value" key, else as a LogicNode. -/
def logicNodeOfJson : PyDict → Except String LNode
  | PyDict.opD op l r hn => do
    let hn2 := if op == "NAND" || op == "NOR" || op == "XNOR" then !hn else hn
    let ln ← if l.hasKey "value" then logicVarOfJson l else logicNodeOfJson l
    let rn ← if r.hasKey "value" then logicVarOfJson r else logicNodeOfJson r
    Except.ok (LNode.lnode ln op rn hn2)
  | PyDict.leafD _ _ _ =>
    Except.error "The \"left\", \"operator\", \"right\", and \"has_not\" keys must exist in the LogicNode JSON"

/-- Embeds `LogicNode.__init__` called directly with left, operator, right, has_not
(src/logic_node.py): the only check is that none of the four is None; the operator
string is never validated. -/
def logicNodeInit (left : Option LNode) (operator : Option String) (right : Option LNode)
    (has_not : Option Bool) : Except String LNode :=
  match left, operator, right, has_not with
  | some l, some op, some r, some hn => Except.ok (LNode.lnode l op r hn)
  | _, _, _, _ =>
    Except.error "The \"left\", \"operator\", \"right\", and \"has_not\" parameters must not be a NoneType."

/-! ## Tree construction: Tree.__init__ (tree.py) and LogicTree.__init__ (logic_tree.py) -/

/-- Lexicographic code-point comparison of character lists, Python string `<=`. -/
def charListLe : List Char → List Char → Bool
  | [], _ => true
  | _ :: _, [] => false
  | c1 :: t1, c2 :: t2 =>
    if c1 == c2 then charListLe t1 t2 else Nat.blt c1.toNat c2.toNat

/-- Python string `<=` (lexicographic by code point). -/
def strLe (a b : String) : Bool := charListLe a.data b.data

/-- Insertion step of an ascending string sort. -/
def insertSorted (x : String) : List String → List String
  | [] => [x]
  | y :: ys => if strLe x y then x :: y :: ys else y :: insertSorted x ys

/-- Embeds `list.sort()` on the variable names (ascending lexicographic). -/
def sortStrings (l : List String) : List String := l.foldr insertSorted []

/-- A Tree (src/tree.py): root (Expression or Variable) plus the sorted variables. -/
structure TreeS where
  root : Expr
  vars : List String
deriving DecidableEq

/-- A LogicTree (src/logic_tree.py): root (LogicNode or LogicVar) plus the sorted
variables. -/
structure LTreeS where
  root : LNode
  vars : List String
deriving DecidableEq

/-- Embeds `Tree.__init__` (src/tree.py): parse, build the dict, sort the variables, then -
note the slip - test `"value" in expression` (the dict actually uses the key
"variable") to decide between Variable and Expression; every exception in the body is
caught and re-raised as ValueError("The expression given is invalid"). -/
def treeInit (expression : String) : Except String TreeS :=
  match parseString expression with
  | none => Except.error "The expression given is invalid"
  | some pt =>
    let (exprDict, vars) := treeCreateDict pt
    let varsSorted := sortStrings vars
    match (if exprDict.hasKey "value" then variableOfJson exprDict
           else expressionOfJson exprDict) with
    | Except.ok root => Except.ok ⟨root, varsSorted⟩
    | Except.error _ => Except.error "The expression given is invalid"

/-- Embeds `LogicTree.__init__` (src/logic_tree.py): same shape, but the dicts use the key
"value", matching its `"value" in self.expression` test. -/
def logicTreeInit (expression : String) : Except String LTreeS :=
  match parseString expression with
  | none => Except.error "The expression given is invalid"
  | some pt =>
    let (exprDict, vars) := logicTreeCreateDict pt
    let varsSorted := sortStrings vars
    match (if exprDict.hasKey "value" then logicVarOfJson exprDict
           else logicNodeOfJson exprDict) with
    | Except.ok root => Except.ok ⟨root, varsSorted⟩
    | Except.error _ => Except.error "The expression given is invalid"

/-! ## Truth-table enumeration and simplification: Tree.evaluate and Tree.simplify -/

/-- The inner loop of `Tree.evaluate` (src/tree.py): for each variable index `i`,
`truth_values[variables[i]] = (binary & (1 << (len - i - 1))) != 0`. -/
def truthValuesFor (vars : List String) (binary : Nat) : List (String × Bool) :=
  (List.range vars.length).map (fun i =>
    (vars.getD i "", (binary &&& (1 <<< (vars.length - i - 1))) != 0))

/-- The outer loop of `Tree.evaluate`: one row per binary value, in order; a KeyError
raised by the root's evaluation aborts the whole enumeration (none). -/
def evaluateRows (root : Expr) (vars : List String) :
    List Nat → Option (List (List (String × Bool) × Bool))
  | [] => some []
  | binary :: rest =>
    match root.evaluate (truthValuesFor vars binary) with
    | none => none
    | some b =>
      match evaluateRows root vars rest with
      | none => none
      | some rows => some ((truthValuesFor vars binary, b) :: rows)

/-- Embeds `Tree.evaluate` (src/tree.py; `LogicTree.evaluate` in src/logic_tree.py is the
same algorithm): iterate `binary` over `range(2 ** len(variables))`. -/
def treeEvaluate (t : TreeS) : Option (List (List (String × Bool) × Bool)) :=
  evaluateRows t.root t.vars (List.range (2 ^ t.vars.length))

/-- Embeds `true_at_minterms` in `Tree.simplify`: the decimals whose row evaluates True. -/
def trueAtMinterms (evaluations : List (List (String × Bool) × Bool)) : List Nat :=
  (List.range evaluations.length).filter (fun d => (evaluations.getD d ([], false)).2)

/-- Embeds `true_at_maxterms` in `Tree.simplify`: the decimals whose row evaluates False. -/
def trueAtMaxterms (evaluations : List (List (String × Bool) × Bool)) : List Nat :=
  (List.range evaluations.length).filter (fun d => !(evaluations.getD d ([], false)).2)

/-- Embeds `Tree.simplify` (src/tree.py; `LogicTree.simplify` in src/logic_tree.py is the
same algorithm).  The external Quine-McCluskey collaborator
`QM(variables, true_at, is_maxterm).solve()` is the parameter `qm` (its module is not
part of this repository).  Two QM results are built - minterms with is_maxterm left
False, maxterms with is_maxterm True - then `get_minterm` selects one, or, when None,
`min(minterm_qm, maxterm_qm, key=len)` which returns the first (minterm) argument on
equal lengths. -/
def treeSimplify (qm : List String → List Nat → Bool → String) (t : TreeS)
    (get_minterm : Option Bool) : Option String :=
  match treeEvaluate t with
  | none => none
  | some evaluations =>
    let minterm_qm := qm t.vars (trueAtMinterms evaluations) false
    let maxterm_qm := qm t.vars (trueAtMaxterms evaluations) true
    some (match get_minterm with
      | some b => if b then minterm_qm else maxterm_qm
      | none => if minterm_qm.length ≤ maxterm_qm.length then minterm_qm else maxterm_qm)

/-! ## Bit-pattern helper for the truth-table theorems -/

/-- Reads a most-significant-first list of booleans as a natural number. -/
def boolsToNat (bs : List Bool) : Nat := bs.foldl (fun acc b => 2 * acc + b.toNat) 0

deriving instance DecidableEq for Except

/-! ## Claim C4: leaf evaluation and unbound variables -/

/-- Claim C4: for every Leaf node and every assignment not containing the Leaf's
name, evaluation fails (none, the KeyError of Variable.evaluate / LogicVar.evaluate)
rather than defaulting to false; and when the name is bound to `b`, evaluation
returns `b XOR negated`.  Stated for both the Variable and the LogicVar family. -/
theorem c4_leaf_evaluation :
    (∀ (v : String) (hn : Bool) (tv : List (String × Bool)),
      lookupTV tv v = none → Expr.evaluate (Expr.var v hn) tv = none)
    ∧ (∀ (v : String) (hn : Bool) (tv : List (String × Bool)) (b : Bool),
      lookupTV tv v = some b → Expr.evaluate (Expr.var v hn) tv = some (b ^^ hn))
    ∧ (∀ (v : String) (hn : Bool) (tv : List (String × Bool)),
      lookupTV tv v = none → LNode.evaluate (LNode.lvar v hn) tv = none)
    ∧ (∀ (v : String) (hn : Bool) (tv : List (String × Bool)) (b : Bool),
      lookupTV tv v = some b → LNode.evaluate (LNode.lvar v hn) tv = some (b ^^ hn)) := by
  refine ⟨?_, ?_, ?_, ?_⟩
  · intro v hn tv h
    simp [Expr.evaluate, h]
  · intro v hn tv b h
    simp [Expr.evaluate, h]
  · intro v hn tv h
    simp [LNode.evaluate, h]
  · intro v hn tv b h
    simp only [LNode.evaluate, h]
    cases hn <;> cases b <;> rfl

/-- Witness for C4 at concrete inputs: a missing variable fails, a bound one
evaluates to its value XOR the negation flag. -/
theorem c4_leaf_evaluation_witness :
    Expr.evaluate (Expr.var "a" false) [] = none
    ∧ Expr.evaluate (Expr.var "a" true) [("a", true)] = some false
    ∧ LNode.evaluate (LNode.lvar "a" false) [("b", true)] = none
    ∧ LNode.evaluate (LNode.lvar "a" true) [("a", true)] = some false :=
  ⟨c4_leaf_evaluation.1 "a" false [] rfl,
   c4_leaf_evaluation.2.1 "a" true [("a", true)] true rfl,
   c4_leaf_evaluation.2.2.1 "a" false [("b", true)] rfl,
   c4_leaf_evaluation.2.2.2 "a" true [("a", true)] true rfl⟩

/-! ## Claim C3: the six-operator combine table -/

/-- Claim C3 against the code: Expression.evaluate (src/expression.py) does satisfy
the six-operator table, combine XOR negated; but LogicNode.evaluate
(src/logic_node.py) only covers OR and AND, so the logic family's own parser output
for "a xor b" crashes with UnboundLocalError (none) instead of evaluating. -/
theorem c3_operator_evaluation :
    (∀ hn x y : Bool,
      Expr.evaluate (Expr.expr "OR" (Expr.var "a" false) (Expr.var "b" false) hn)
        [("a", x), ("b", y)] = some (hn ^^ (x || y))
      ∧ Expr.evaluate (Expr.expr "NOR" (Expr.var "a" false) (Expr.var "b" false) hn)
        [("a", x), ("b", y)] = some (hn ^^ !(x || y))
      ∧ Expr.evaluate (Expr.expr "AND" (Expr.var "a" false) (Expr.var "b" false) hn)
        [("a", x), ("b", y)] = some (hn ^^ (x && y))
      ∧ Expr.evaluate (Expr.expr "NAND" (Expr.var "a" false) (Expr.var "b" false) hn)
        [("a", x), ("b", y)] = some (hn ^^ !(x && y))
      ∧ Expr.evaluate (Expr.expr "XOR" (Expr.var "a" false) (Expr.var "b" false) hn)
        [("a", x), ("b", y)] = some (hn ^^ (x ^^ y))
      ∧ Expr.evaluate (Expr.expr "XNOR" (Expr.var "a" false) (Expr.var "b" false) hn)
        [("a", x), ("b", y)] = some (hn ^^ !(x ^^ y)))
    ∧ logicTreeInit "a xor b"
        = Except.ok ⟨LNode.lnode (LNode.lvar "a" false) "XOR" (LNode.lvar "b" false) false,
            ["a", "b"]⟩
    ∧ LNode.evaluate (LNode.lnode (LNode.lvar "a" false) "XOR" (LNode.lvar "b" false) false)
        [("a", true), ("b", false)] = none := by
  refine ⟨by decide, by decide, rfl⟩

/-! ## Claim C2: parsing a single (possibly negated) identifier -/

/-- Claim C2 against the code: Tree.__init__ (src/tree.py) tests for the key "value"
while Tree.__create_dict emits the key "variable", so Tree("not a") - whose dict is a
bare leaf - falls into the Expression branch, hits its KeyError, and surfaces as
ValueError; LogicTree("not a") (src/logic_tree.py) does produce the negated leaf with
display "NOT a", and Variable.functional (src/variable.py) renders such a leaf as
"not(a)". -/
theorem c2_single_identifier_root :
    treeInit "not a" = Except.error "The expression given is invalid"
    ∧ logicTreeInit "not a" = Except.ok ⟨LNode.lvar "a" true, ["a"]⟩
    ∧ LNode.str (LNode.lvar "a" true) = "NOT a"
    ∧ variableStr "a" true = "NOT a"
    ∧ Expr.functional (Expr.var "a" true) = "not(a)" :=
  ⟨rfl, rfl, rfl, rfl, rfl⟩

/-! ## Claim C10: multi-character identifiers and empty input -/

/-- Claim C10 against the code: empty input is indeed rejected, but the grammar's
IDENT terminal is common.CNAME, which matches identifiers of any length, so
"ab or c" parses successfully in both families with "ab" as a variable - despite
LogicTree's docstring promising ValueError for a variable of length > 1. -/
theorem c10_identifier_lexing :
    treeInit "" = Except.error "The expression given is invalid"
    ∧ logicTreeInit "" = Except.error "The expression given is invalid"
    ∧ treeInit "ab or c"
        = Except.ok ⟨Expr.expr "OR" (Expr.var "ab" false) (Expr.var "c" false) false,
            ["ab", "c"]⟩
    ∧ logicTreeInit "ab or c"
        = Except.ok ⟨LNode.lnode (LNode.lvar "ab" false) "OR" (LNode.lvar "c" false) false,
            ["ab", "c"]⟩ :=
  ⟨rfl, rfl, by decide, by decide⟩

/-! ## Claim C7: the negated flag through deserialization -/

/-- Claim C7 against the code: Expression.__init__ (src/expression.py) stores the
json's has_not unchanged for every operator, and evaluation then treats it as one
more NOT on top of the operator's result; but LogicNode.__init__ (src/logic_node.py)
inverts the loaded has_not whenever the operator is NAND, NOR or XNOR (leaving the
operator itself unchanged), so a NAND mapping with has_not=False yields a node whose
has_not is True. -/
theorem c7_negated_flag_deserialization :
    (∀ (op : String) (hn : Bool),
      expressionOfJson (PyDict.opD op (PyDict.leafD "variable" "a" false)
          (PyDict.leafD "variable" "b" false) hn)
        = Except.ok (Expr.expr op (Expr.var "a" false) (Expr.var "b" false) hn))
    ∧ (∀ hn x y : Bool,
      Expr.evaluate (Expr.expr "NAND" (Expr.var "a" false) (Expr.var "b" false) hn)
        [("a", x), ("b", y)] = some (hn ^^ !(x && y)))
    ∧ logicNodeOfJson (PyDict.opD "NAND" (PyDict.leafD "value" "a" false)
        (PyDict.leafD "value" "b" false) false)
      = Except.ok (LNode.lnode (LNode.lvar "a" false) "NAND" (LNode.lvar "b" false) true)
    ∧ logicNodeOfJson (PyDict.opD "NOR" (PyDict.leafD "value" "a" false)
        (PyDict.leafD "value" "b" false) false)
      = Except.ok (LNode.lnode (LNode.lvar "a" false) "NOR" (LNode.lvar "b" false) true)
    ∧ logicNodeOfJson (PyDict.opD "XNOR" (PyDict.leafD "value" "a" false)
        (PyDict.leafD "value" "b" false) false)
      = Except.ok (LNode.lnode (LNode.lvar "a" false) "XNOR" (LNode.lvar "b" false) true) := by
  refine ⟨fun op hn => rfl, by decide, rfl, rfl, rfl⟩

/-! ## Claim C8: no invalid-operator check at construction -/

/-- Counterexample to claim C8: constructing an Operation directly with the
unrecognized operator "FOO" succeeds in both families - there is no
invalid-operator validation anywhere in Expression.__init__ or LogicNode.__init__. -/
theorem c8_counterexample :
    expressionInit "FOO" (Expr.var "a" false) (Expr.var "b" false) false
      = Except.ok (Expr.expr "FOO" (Expr.var "a" false) (Expr.var "b" false) false)
    ∧ logicNodeInit (some (LNode.lvar "a" false)) (some "FOO")
        (some (LNode.lvar "b" false)) (some false)
      = Except.ok (LNode.lnode (LNode.lvar "a" false) "FOO" (LNode.lvar "b" false) false)
    ∧ "FOO" ∉ ["AND", "OR", "XOR", "XNOR", "NAND", "NOR"] :=
  ⟨rfl, rfl, by decide⟩

/-- Claim C8 as amended: direct construction never validates the operator string -
any operator is accepted and stored verbatim (LogicNode only rejects None
arguments). -/
theorem c8_no_operator_validation :
    ∀ (op : String) (l r : Expr) (ll rr : LNode) (hn : Bool),
      expressionInit op l r hn = Except.ok (Expr.expr op l r hn)
      ∧ logicNodeInit (some ll) (some op) (some rr) (some hn)
          = Except.ok (LNode.lnode ll op rr hn) :=
  fun _ _ _ _ _ _ => ⟨rfl, rfl⟩

/-! ## Claim C9: display rendering -/

/-- Counterexample to claim C9: a negated Operation renders as "NOT(a OR b)" -
LogicNode.__str__ (src/logic_node.py) puts no space between NOT and the opening
parenthesis, unlike the claimed "NOT (a OR b)". -/
theorem c9_counterexample :
    LNode.str (LNode.lnode (LNode.lvar "a" false) "OR" (LNode.lvar "b" false) true)
      = "NOT(a OR b)"
    ∧ "NOT(a OR b)" ≠ "NOT (a OR b)" :=
  ⟨rfl, by decide⟩

/-- Claim C9 as amended: a non-negated Operation renders as "{left} {OP} {right}",
a negated one as "NOT({left} {OP} {right})" with no space after NOT; a Leaf renders
as "NOT {name}" when negated (with space) and "{name}" otherwise, in both the
LogicVar and the Variable family. -/
theorem c9_display_rendering :
    ∀ (l r : LNode) (op v : String),
      LNode.str (LNode.lnode l op r false) = LNode.str l ++ " " ++ op ++ " " ++ LNode.str r
      ∧ LNode.str (LNode.lnode l op r true)
          = "NOT(" ++ LNode.str l ++ " " ++ op ++ " " ++ LNode.str r ++ ")"
      ∧ LNode.str (LNode.lvar v true) = "NOT " ++ v
      ∧ LNode.str (LNode.lvar v false) = v
      ∧ variableStr v true = "NOT " ++ v
      ∧ variableStr v false = v :=
  fun _ _ _ _ => ⟨rfl, rfl, rfl, rfl, rfl, rfl⟩

/-! ## Claim C1: NOT binds to the single following term -/

/-- Counterexample to claim C1's rendering detail: the tree parsed from
"not a or b" does have the claimed shape (OR over a negated leaf a and leaf b), but
its functional rendering by Expression.functional is "OR(not(a), b)" - the source
interpolates the stored uppercase operator without lowercasing - and in the logic
family LogicNode.functional crashes (AttributeError, none) because LogicVar defines
no functional method; so no code path renders the claimed string "or(not(a), b)". -/
theorem c1_counterexample :
    treeInit "not a or b"
      = Except.ok ⟨Expr.expr "OR" (Expr.var "a" true) (Expr.var "b" false) false,
          ["a", "b"]⟩
    ∧ Expr.functional (Expr.expr "OR" (Expr.var "a" true) (Expr.var "b" false) false)
        = "OR(not(a), b)"
    ∧ "OR(not(a), b)" ≠ "or(not(a), b)"
    ∧ LNode.functional
        (LNode.lnode (LNode.lvar "a" true) "OR" (LNode.lvar "b" false) false) = none :=
  ⟨by decide, rfl, by decide, rfl⟩

/-- Claim C1 as amended: NOT binds only to the single following term.  At the token
level, for any identifiers a and b, `not a or b` parses to an orexpr whose left
child is the nexpr wrapping only a; through both families' tree construction this
yields an OR operation with a negated leaf a and a plain leaf b (functional
rendering by the Tree family: "OR(not(a), b)"). -/
theorem c1_not_binds_single_term :
    (∀ a b : String,
      parseTokens [Token.notT "not", Token.ident a, Token.orT, Token.ident b]
        = some (PTree.node "orexpr"
            (PTree.node "nexpr" (PTree.tok "not") (PTree.tok a)) (PTree.tok b)))
    ∧ tokenize "not a or b"
        = some [Token.notT "not", Token.ident "a", Token.orT, Token.ident "b"]
    ∧ treeInit "not a or b"
        = Except.ok ⟨Expr.expr "OR" (Expr.var "a" true) (Expr.var "b" false) false,
            ["a", "b"]⟩
    ∧ logicTreeInit "not a or b"
        = Except.ok ⟨LNode.lnode (LNode.lvar "a" true) "OR" (LNode.lvar "b" false) false,
            ["a", "b"]⟩ :=
  ⟨fun _ _ => rfl, rfl, by decide, by decide⟩

/-! ## Helper lemmas for the truth-table claims -/

/-- Characterization of the enumeration loop: a successful run yields one row per
input value, each carrying that value's truth assignment and its evaluation. -/
theorem evaluateRows_spec (root : Expr) (vs : List String) :
    ∀ (l : List Nat) (rows : List (List (String × Bool) × Bool)),
      evaluateRows root vs l = some rows →
      rows.length = l.length ∧
      ∀ (i : Nat) (hi : i < l.length) (hi2 : i < rows.length),
        (rows.get ⟨i, hi2⟩).1 = truthValuesFor vs (l.get ⟨i, hi⟩) ∧
        root.evaluate (rows.get ⟨i, hi2⟩).1 = some (rows.get ⟨i, hi2⟩).2 := by
  intro l
  induction l with
  | nil =>
    intro rows h
    simp only [evaluateRows, Option.some.injEq] at h
    subst h
    refine ⟨rfl, ?_⟩
    intro i hi
    exact absurd hi (by simp)
  | cons binary rest ih =>
    intro rows h
    simp only [evaluateRows] at h
    cases heval : Expr.evaluate root (truthValuesFor vs binary) with
    | none => rw [heval] at h; simp at h
    | some b =>
      rw [heval] at h
      cases hrest : evaluateRows root vs rest with
      | none => rw [hrest] at h; simp at h
      | some rows0 =>
        rw [hrest] at h
        simp only [Option.some.injEq] at h
        subst h
        obtain ⟨ihlen, ihpt⟩ := ih rows0 hrest
        refine ⟨by simp [ihlen], ?_⟩
        intro i hi hi2
        cases i with
        | zero => exact ⟨rfl, heval⟩
        | succ j =>
          have hj : j < rest.length := by simpa using hi
          have hj2 : j < rows0.length := by simpa using hi2
          exact ihpt j hj hj2

/-- The source's bit test `(binary & (1 << k)) != 0` is `Nat.testBit binary k`. -/
theorem and_shiftLeft_bne_zero (i k : Nat) : ((i &&& (1 <<< k)) != 0) = i.testBit k := by
  rw [Nat.shiftLeft_eq, one_mul, Nat.and_two_pow]
  cases h : i.testBit k
  · simp
  · simp [Nat.pos_iff_ne_zero.mp (Nat.two_pow_pos k)]

/-- Entry `j` of a generated truth assignment: the variable at `j` paired with bit
`n - 1 - j` of the row's binary value. -/
theorem truthValuesFor_getD (vs : List String) (binary j : Nat) (hj : j < vs.length) :
    (truthValuesFor vs binary).getD j ("", false)
      = (vs.getD j "", Nat.testBit binary (vs.length - 1 - j)) := by
  have hj2 : j < (truthValuesFor vs binary).length := by
    simp [truthValuesFor, hj]
  rw [List.getD_eq_getElem?_getD, List.getElem?_eq_getElem hj2]
  simp only [Option.getD_some]
  unfold truthValuesFor
  simp only [List.getElem_map, List.getElem_range]
  rw [and_shiftLeft_bne_zero]
  have hidx : vs.length - j - 1 = vs.length - 1 - j := by omega
  rw [hidx]

/-- Equal maps over the same list agree pointwise on its members. -/
theorem list_map_eq_map_pointwise {α β : Type} (f g : α → β) :
    ∀ (l : List α), l.map f = l.map g → ∀ a ∈ l, f a = g a := by
  intro l
  induction l with
  | nil => intro _ a ha; cases ha
  | cons x xs ih =>
    intro h a ha
    simp only [List.map_cons, List.cons.injEq] at h
    rcases List.mem_cons.mp ha with rfl | hmem
    · exact h.1
    · exact ih h.2 a hmem

/-- Bits at or above the width of a bounded number are false. -/
theorem testBit_false_of_lt_ge {i n k : Nat} (hi : i < 2 ^ n) (hk : n ≤ k) :
    i.testBit k = false :=
  Nat.testBit_lt_two_pow (lt_of_lt_of_le hi (Nat.pow_le_pow_right (by norm_num) hk))

/-- Two numbers below `2 ^ n` with the same most-significant-first bit pattern of
width `n` are equal. -/
theorem testBit_pattern_inj {n i1 i2 : Nat} (h1 : i1 < 2 ^ n) (h2 : i2 < 2 ^ n)
    (h : (List.range n).map (fun j => Nat.testBit i1 (n - 1 - j))
       = (List.range n).map (fun j => Nat.testBit i2 (n - 1 - j))) : i1 = i2 := by
  apply Nat.eq_of_testBit_eq
  intro k
  by_cases hk : k < n
  · have hmem : n - 1 - k ∈ List.range n := List.mem_range.mpr (by omega)
    have hpt := list_map_eq_map_pointwise _ _ _ h (n - 1 - k) hmem
    have hidx : n - 1 - (n - 1 - k) = k := by omega
    rw [hidx] at hpt
    exact hpt
  · rw [testBit_false_of_lt_ge h1 (by omega), testBit_false_of_lt_ge h2 (by omega)]

theorem boolsToNat_append (bs : List Bool) (b : Bool) :
    boolsToNat (bs ++ [b]) = 2 * boolsToNat bs + b.toNat := by
  simp [boolsToNat, List.foldl_append]

theorem boolsToNat_lt (bs : List Bool) : boolsToNat bs < 2 ^ bs.length := by
  induction bs using List.reverseRecOn with
  | nil => simp [boolsToNat]
  | append_singleton bs b ih =>
    rw [boolsToNat_append]
    have h2 : 2 ^ (bs ++ [b]).length = 2 ^ bs.length * 2 := by
      simp [List.length_append, pow_succ]
    rw [h2]
    cases b <;> simp <;> omega

theorem testBit_twoMulAdd_zero (i : Nat) (b : Bool) :
    (2 * i + b.toNat).testBit 0 = b := by
  rw [Nat.testBit_zero]
  cases b <;> simp [Nat.mul_add_mod]

theorem testBit_twoMulAdd_succ (i : Nat) (b : Bool) (k : Nat) :
    (2 * i + b.toNat).testBit (k + 1) = i.testBit k := by
  rw [Nat.testBit_add_one]
  have hdiv : (2 * i + b.toNat) / 2 = i := by cases b <;> simp <;> omega
  rw [hdiv]

/-- The number encoded by a most-significant-first bit list reproduces that list
through `testBit`. -/
theorem testBit_boolsToNat : ∀ (bs : List Bool) (j : Nat), j < bs.length →
    (boolsToNat bs).testBit (bs.length - 1 - j) = bs.getD j false := by
  intro bs
  induction bs using List.reverseRecOn with
  | nil => intro j hj; simp at hj
  | append_singleton bs b ih =>
    intro j hj
    rw [boolsToNat_append]
    rcases Nat.lt_or_ge j bs.length with hlt | hge
    · have hidx : (bs ++ [b]).length - 1 - j = (bs.length - 1 - j) + 1 := by
        simp only [List.length_append, List.length_singleton]
        omega
      rw [hidx, testBit_twoMulAdd_succ, ih j hlt]
      rw [List.getD_eq_getElem?_getD, List.getD_eq_getElem?_getD,
        List.getElem?_append_left hlt]
    · have hj2 : j = bs.length := by
        have hlen : j < bs.length + 1 := by
          simpa [List.length_append] using hj
        omega
      subst hj2
      have hidx : (bs ++ [b]).length - 1 - bs.length = 0 := by
        simp [List.length_append]
      rw [hidx, testBit_twoMulAdd_zero]
      rw [List.getD_eq_getElem?_getD, List.getElem?_append_right (le_refl _)]
      simp

/-! ## Claim C5: truth-table enumeration -/

/-- Claim C5: for a tree over n distinct variables, Tree.evaluate yields exactly
2^n rows in ascending binary order: in row i, variable j carries bit n-1-j of i
(leftmost variable most significant), the row's result is the root's evaluation
under that assignment, and the 2^n bit patterns are pairwise distinct and all
occur. -/
theorem c5_truth_table_enumeration (t : TreeS)
    (rows : List (List (String × Bool) × Bool))
    (_hvars : t.vars.Nodup) (h : treeEvaluate t = some rows) :
    rows.length = 2 ^ t.vars.length
    ∧ (∀ (i : Nat) (hi : i < rows.length) (j : Nat), j < t.vars.length →
        (rows.get ⟨i, hi⟩).1.getD j ("", false)
          = (t.vars.getD j "", Nat.testBit i (t.vars.length - 1 - j)))
    ∧ (∀ (i : Nat) (hi : i < rows.length),
        t.root.evaluate (rows.get ⟨i, hi⟩).1 = some (rows.get ⟨i, hi⟩).2)
    ∧ (rows.map (fun r => r.1.map Prod.snd)).Nodup
    ∧ (∀ bs : List Bool, bs.length = t.vars.length →
        bs ∈ rows.map (fun r => r.1.map Prod.snd)) := by
  obtain ⟨hlen0, hpt⟩ :=
    evaluateRows_spec t.root t.vars (List.range (2 ^ t.vars.length)) rows h
  have hlen : rows.length = 2 ^ t.vars.length := by simpa using hlen0
  have hrange : ∀ (i : Nat), i < rows.length →
      i < (List.range (2 ^ t.vars.length)).length := by
    intro i hi
    simpa [List.length_range] using hlen ▸ hi
  have hrow1 : ∀ (i : Nat) (hi : i < rows.length),
      (rows.get ⟨i, hi⟩).1 = truthValuesFor t.vars i := by
    intro i hi
    have hp := (hpt i (hrange i hi) hi).1
    rwa [List.get_range] at hp
  have heval : ∀ (i : Nat) (hi : i < rows.length),
      t.root.evaluate (rows.get ⟨i, hi⟩).1 = some (rows.get ⟨i, hi⟩).2 := by
    intro i hi
    exact (hpt i (hrange i hi) hi).2
  have hpat : ∀ (i : Nat) (hi : i < rows.length),
      (rows.get ⟨i, hi⟩).1.map Prod.snd
        = (List.range t.vars.length).map
            (fun j => Nat.testBit i (t.vars.length - 1 - j)) := by
    intro i hi
    rw [hrow1 i hi]
    unfold truthValuesFor
    rw [List.map_map]
    apply List.map_congr_left
    intro j hj
    have hj2 : j < t.vars.length := List.mem_range.mp hj
    simp only [Function.comp_apply]
    rw [and_shiftLeft_bne_zero]
    have hidx : t.vars.length - j - 1 = t.vars.length - 1 - j := by omega
    rw [hidx]
  refine ⟨hlen, ?_, heval, ?_, ?_⟩
  · intro i hi j hj
    rw [hrow1 i hi]
    exact truthValuesFor_getD t.vars i j hj
  · have heq : rows.map (fun r => r.1.map Prod.snd)
        = (List.range (2 ^ t.vars.length)).map
            (fun i => (List.range t.vars.length).map
              (fun j => Nat.testBit i (t.vars.length - 1 - j))) := by
      apply List.ext_getElem
      · simp [hlen]
      · intro i h1 h2
        simp only [List.getElem_map, List.getElem_range]
        have hi : i < rows.length := by simpa using h1
        exact hpat i hi
    rw [heq]
    refine List.Nodup.map_on ?_ (List.nodup_range _)
    intro x hx y hy hxy
    exact testBit_pattern_inj (List.mem_range.mp hx) (List.mem_range.mp hy) hxy
  · intro bs hbs
    have hlt : boolsToNat bs < 2 ^ t.vars.length := by
      rw [← hbs]; exact boolsToNat_lt bs
    have hi : boolsToNat bs < rows.length := by rw [hlen]; exact hlt
    have hrow : (rows.get ⟨boolsToNat bs, hi⟩).1.map Prod.snd = bs := by
      rw [hpat (boolsToNat bs) hi]
      apply List.ext_getElem
      · simp [hbs]
      · intro j h1 h2
        simp only [List.getElem_map, List.getElem_range]
        have hj : j < bs.length := h2
        have hb := testBit_boolsToNat bs j hj
        rw [hbs] at hb
        rw [hb, List.getD_eq_getElem?_getD, List.getElem?_eq_getElem hj]
        rfl
    have hmem : rows.get ⟨boolsToNat bs, hi⟩ ∈ rows :=
      List.get_mem rows (boolsToNat bs) hi
    exact hrow ▸ List.mem_map_of_mem (fun r => r.1.map Prod.snd) hmem

/-- Witness for C5 on the tree of "a or b": four rows, and the pattern [false, true]
(row 1) occurs among the rows' value patterns. -/
theorem c5_truth_table_enumeration_witness :
    [([("a", false), ("b", false)], false), ([("a", false), ("b", true)], true),
     ([("a", true), ("b", false)], true), ([("a", true), ("b", true)], true)].length
      = 2 ^ (["a", "b"] : List String).length
    ∧ [false, true] ∈
        [([("a", false), ("b", false)], false), ([("a", false), ("b", true)], true),
         ([("a", true), ("b", false)], true), ([("a", true), ("b", true)], true)].map
          (fun r => r.1.map Prod.snd) := by
  have h := c5_truth_table_enumeration
    ⟨Expr.expr "OR" (Expr.var "a" false) (Expr.var "b" false) false, ["a", "b"]⟩
    [([("a", false), ("b", false)], false), ([("a", false), ("b", true)], true),
     ([("a", true), ("b", false)], true), ([("a", true), ("b", true)], true)]
    (by decide) (by decide)
  exact ⟨h.1, h.2.2.2.2 [false, true] (by decide)⟩

/-! ## Claim C6: simplify's contract with the external minimizer -/

/-- Claim C6: Tree.simplify builds exactly the two QM calls - the ascending list of
row indices evaluating true with is_maxterm false, and the ascending list of row
indices evaluating false with is_maxterm true - and selects the minterm result when
get_minterm is true, the maxterm result when it is false, and when unspecified the
shorter string with ties going to the minterm result; the result depends on the
minimizer only through the values of those two calls. -/
theorem c6_simplify_minimizer_contract
    (qm qm2 : List String → List Nat → Bool → String) (t : TreeS)
    (rows : List (List (String × Bool) × Bool)) (h : treeEvaluate t = some rows) :
    treeSimplify qm t (some true) = some (qm t.vars (trueAtMinterms rows) false)
    ∧ treeSimplify qm t (some false) = some (qm t.vars (trueAtMaxterms rows) true)
    ∧ treeSimplify qm t none
        = some (if (qm t.vars (trueAtMinterms rows) false).length
                  ≤ (qm t.vars (trueAtMaxterms rows) true).length
                then qm t.vars (trueAtMinterms rows) false
                else qm t.vars (trueAtMaxterms rows) true)
    ∧ (qm t.vars (trueAtMinterms rows) false = qm2 t.vars (trueAtMinterms rows) false →
       qm t.vars (trueAtMaxterms rows) true = qm2 t.vars (trueAtMaxterms rows) true →
       ∀ gm, treeSimplify qm t gm = treeSimplify qm2 t gm)
    ∧ (∀ d : Nat, d ∈ trueAtMinterms rows ↔
        d < rows.length ∧ (rows.getD d ([], false)).2 = true)
    ∧ (∀ d : Nat, d ∈ trueAtMaxterms rows ↔
        d < rows.length ∧ (rows.getD d ([], false)).2 = false)
    ∧ List.Pairwise (· < ·) (trueAtMinterms rows)
    ∧ List.Pairwise (· < ·) (trueAtMaxterms rows) := by
  refine ⟨?_, ?_, ?_, ?_, ?_, ?_, ?_, ?_⟩
  · simp [treeSimplify, h]
  · simp [treeSimplify, h]
  · simp [treeSimplify, h]
  · intro h1 h2 gm
    simp only [treeSimplify, h]
    rw [h1, h2]
  · intro d
    simp [trueAtMinterms, List.mem_filter, List.mem_range]
  · intro d
    simp [trueAtMaxterms, List.mem_filter, List.mem_range]
  · exact List.Pairwise.filter _ (List.pairwise_lt_range _)
  · exact List.Pairwise.filter _ (List.pairwise_lt_range _)

/-- Witness for C6 on the tree of "a or b" with a stub minimizer returning "YYY"
for the minterm call and "XX" for the maxterm call: explicit modes pick the
corresponding result, and the unspecified mode picks the shorter maxterm string. -/
theorem c6_simplify_minimizer_contract_witness :
    treeSimplify (fun _ _ m => if m then "XX" else "YYY")
      ⟨Expr.expr "OR" (Expr.var "a" false) (Expr.var "b" false) false, ["a", "b"]⟩
      (some true) = some "YYY"
    ∧ treeSimplify (fun _ _ m => if m then "XX" else "YYY")
      ⟨Expr.expr "OR" (Expr.var "a" false) (Expr.var "b" false) false, ["a", "b"]⟩
      (some false) = some "XX"
    ∧ treeSimplify (fun _ _ m => if m then "XX" else "YYY")
      ⟨Expr.expr "OR" (Expr.var "a" false) (Expr.var "b" false) false, ["a", "b"]⟩
      none = some "XX" := by
  have h := c6_simplify_minimizer_contract
    (fun _ _ m => if m then "XX" else "YYY") (fun _ _ m => if m then "XX" else "YYY")
    ⟨Expr.expr "OR" (Expr.var "a" false) (Expr.var "b" false) false, ["a", "b"]⟩
    [([("a", false), ("b", false)], false), ([("a", false), ("b", true)], true),
     ([("a", true), ("b", false)], true), ([("a", true), ("b", true)], true)]
    (by decide)
  exact ⟨h.1.trans (by decide), h.2.1.trans (by decide), h.2.2.1.trans (by decide)⟩
